import Mathlib

/-!
# HLTypeConversion.h: identifier / edict / private-data conversions and EHANDLE

A shallow embedding of `public/HLTypeConversion.h`.

* Pointers are integer addresses (`Ptr`), the null pointer is `0`.
* Memory is a partial map from addresses to bytes; a read of an unmapped
  byte is a fault, and every function that dereferences returns `Option`
  (`none` = fault).  Multi-byte values are little-endian.
* Everything the header takes from `amxxmodule.h` (the engine calls
  `INDEXENT`, `VARS`, `FNullEnt`, and the layout of `edict_t` /
  `entvars_t`) is a field of `Host`.
-/

namespace HL

/-- An address; `0` is `nullptr`. -/
abbrev Ptr := Int

/-- Byte-addressed memory; `none` marks an unmapped byte. -/
abbrev Mem := Ptr → Option Nat

/-- The engine interface and the struct layout that `amxxmodule.h` supplies. -/
structure Host where
  /-- Width of a pointer in bytes: `sizeof(void*)`. -/
  ptrBytes : Nat
  /-- Stride of the edict array: `sizeof(edict_t)`. -/
  edictSize : Nat
  /-- Byte offset of `edict_t::serialnumber`. -/
  offSerialnumber : Nat
  /-- Byte offset of `edict_t::pvPrivateData`. -/
  offPvPrivateData : Nat
  /-- Byte offset of `entvars_t::pContainingEntity`. -/
  offPContainingEntity : Nat
  /-- Length of the edict array (number of slots). -/
  maxEntities : Nat
  /-- Engine call `INDEXENT(i)`: the edict of entity index `i`. -/
  INDEXENT : Int → Ptr
  /-- Engine accessor `VARS(pent)`: the entvars block of an edict. -/
  VARS : Ptr → Ptr
  /-- The non-null edicts the engine treats as "no entity". -/
  invalidEnt : Ptr → Bool

/-- Modelled from the spec: the host null-test `FNullEnt` of `amxxmodule.h`,
which the header calls but does not define.  It holds of the null pointer and
of every slot the host treats as invalid. -/
def FNullEnt (h : Host) (pent : Ptr) : Bool :=
  decide (pent = 0) || h.invalidEnt pent

/-- Conversion to a 32-bit `int` (two's complement wrap), as done by
`static_cast<int>` and by passing a `size_t` for an `int` parameter. -/
def toInt32 (x : Int) : Int :=
  (x + 2147483648) % 4294967296 - 2147483648

/-- One byte of memory. -/
def readByte (m : Mem) (a : Ptr) : Option Nat :=
  match m a with
  | none => none
  | some b => some (b % 256)

/-- The little-endian value of the `n` bytes at `a`; a fault if any is unmapped. -/
def readLE (m : Mem) (a : Ptr) : Nat → Option Nat
  | 0 => some 0
  | n + 1 =>
    match readByte m a, readLE m (a + 1) n with
    | some b, some r => some (b + 256 * r)
    | _, _ => none

/-- Load of a pointer-sized value: `*reinterpret_cast<T**>(a)`. -/
def readPtr (h : Host) (m : Mem) (a : Ptr) : Option Ptr :=
  match readLE m a h.ptrBytes with
  | none => none
  | some v => some (Int.ofNat v)

/-- Load of a 32-bit `int`. -/
def readInt (m : Mem) (a : Ptr) : Option Int :=
  match readLE m a 4 with
  | none => none
  | some v => some (toInt32 (Int.ofNat v))

/-- Address computed by `ref_pdata<T>`:
`(int8*)pPrivateData + offset + element * sizeof(T)`. -/
def ref_pdata (sizeofT : Nat) (pPrivateData : Ptr) (offset : Int) (element : Int) : Ptr :=
  pPrivateData + offset + element * sizeofT

/-- Load `get_pdata<entvars_t*>(pPrivateData, offset)` (element defaults to 0). -/
def get_pdata (h : Host) (m : Mem) (pPrivateData : Ptr) (offset : Int) : Option Ptr :=
  readPtr h m (ref_pdata h.ptrBytes pPrivateData offset 0)

/-- The data members of `class HLTypeConversion`. -/
structure HLTypeConversion where
  m_FirstEdict : Ptr
  m_PevOffset : Nat
deriving DecidableEq, Repr

namespace HLTypeConversion

/-- The constructor: `m_FirstEdict(nullptr), m_PevOffset(0)`. -/
def new : HLTypeConversion :=
  { m_FirstEdict := 0, m_PevOffset := 0 }

/-- The `for (size_t i = 0; i < 0xFFF; ++i)` loop of `search_pev`, entered at
`i`.  Result: `none` on a fault, `some (some i)` when the probe at `i`
matched (the `return` inside the loop), `some none` when the loop ran out. -/
def search_pev_loop (h : Host) (m : Mem) (privateData pev : Ptr) (i : Nat) :
    Option (Option Nat) :=
  if i < 0xFFF then
    match readPtr h m (privateData + i) with
    | none => none
    | some val =>
      if val = pev then some (some i)
      else search_pev_loop h m privateData pev (i + 1)
  else some none
termination_by 0xFFF - i

/-- Method `search_pev`. -/
def search_pev (h : Host) (m : Mem) (s : HLTypeConversion) : Option HLTypeConversion :=
  let pev := h.VARS s.m_FirstEdict
  match readPtr h m (s.m_FirstEdict + h.offPvPrivateData) with
  | none => none
  | some privateData =>
    match search_pev_loop h m privateData pev 0 with
    | none => none
    | some (some i) => some { s with m_PevOffset := i }
    | some none => some { s with m_PevOffset := 0 }

/-- Method `init`. -/
def init (h : Host) (m : Mem) (s : HLTypeConversion) : Option HLTypeConversion :=
  if s.m_FirstEdict = 0 then
    search_pev h m { s with m_FirstEdict := h.INDEXENT 0 }
  else some s

/-- Method `edict_to_id`.  The pointer difference is counted in strides of
`sizeof(edict_t)` and then narrowed to `int`. -/
def edict_to_id (h : Host) (s : HLTypeConversion) (pEdict : Ptr) : Int :=
  if FNullEnt h pEdict then -1
  else toInt32 ((pEdict - s.m_FirstEdict).tdiv h.edictSize)

/-- Method `entvar_to_edict`. -/
def entvar_to_edict (h : Host) (m : Mem) (pev : Ptr) : Option Ptr :=
  if pev = 0 then some 0
  else
    match readPtr h m (pev + h.offPContainingEntity) with
    | none => none
    | some pContainingEntity =>
      if FNullEnt h pContainingEntity then some 0 else some pContainingEntity

/-- Method `entvars_to_id`. -/
def entvars_to_id (h : Host) (m : Mem) (s : HLTypeConversion) (pev : Ptr) : Option Int :=
  match entvar_to_edict h m pev with
  | none => none
  | some pEdict => some (edict_to_id h s pEdict)

/-- Method `id_to_edict`: `m_FirstEdict + index`.  The address is computed on
the integers: it is the pointer the code forms as long as it lies in the
pointer range of the host, where `wrapPtr` leaves it as it is. -/
def id_to_edict (h : Host) (s : HLTypeConversion) (index : Int) : Ptr :=
  s.m_FirstEdict + index * h.edictSize

/-- Method `id_to_cbase`. -/
def id_to_cbase (h : Host) (m : Mem) (s : HLTypeConversion) (index : Int) : Option Ptr :=
  let pEdict := id_to_edict h s index
  if pEdict ≠ 0 then readPtr h m (pEdict + h.offPvPrivateData) else some 0

/-- Method `id_to_entvars`. -/
def id_to_entvars (h : Host) (s : HLTypeConversion) (index : Int) : Ptr :=
  let pEdict := id_to_edict h s index
  if pEdict ≠ 0 then h.VARS pEdict else 0

/-- Method `cbase_to_entvar`.  `m_PevOffset` (a `size_t`) is passed for the
`int offset` parameter of `get_pdata`. -/
def cbase_to_entvar (h : Host) (m : Mem) (s : HLTypeConversion) (cbase : Ptr) : Option Ptr :=
  if cbase = 0 then some 0
  else get_pdata h m cbase (toInt32 s.m_PevOffset)

/-- Method `cbase_to_id`. -/
def cbase_to_id (h : Host) (m : Mem) (s : HLTypeConversion) (cbase : Ptr) : Option Int :=
  match cbase_to_entvar h m s cbase with
  | none => none
  | some pev => entvars_to_id h m s pev

end HLTypeConversion

/-- The data members of `class EHANDLE`. -/
structure EHANDLE where
  m_pent : Ptr
  m_serialnumber : Int
deriving DecidableEq, Repr

namespace EHANDLE

/-- Method `Get`: the returned pointer together with the handle afterwards. -/
def Get (h : Host) (m : Mem) (e : EHANDLE) : Option (Ptr × EHANDLE) :=
  if !FNullEnt h e.m_pent then
    match readInt m (e.m_pent + h.offSerialnumber) with
    | none => none
    | some serialnumber =>
      if serialnumber = e.m_serialnumber then some (e.m_pent, e)
      else some (0, e)
  else some (0, e)

/-- Method `Set`: the returned pointer together with the handle afterwards. -/
def Set (h : Host) (m : Mem) (_e : EHANDLE) (pent : Ptr) : Option (Ptr × EHANDLE) :=
  if !FNullEnt h pent then
    match readInt m (pent + h.offSerialnumber) with
    | none => none
    | some serialnumber => some (pent, { m_pent := pent, m_serialnumber := serialnumber })
  else some (pent, { m_pent := 0, m_serialnumber := 0 })

/-- The results of `n` successive `Get()` calls and the handle after the last. -/
def GetTimes (h : Host) (m : Mem) (e : EHANDLE) : Nat → Option (List Ptr × EHANDLE)
  | 0 => some ([], e)
  | n + 1 =>
    match Get h m e with
    | none => none
    | some (p, e1) =>
      match GetTimes h m e1 n with
      | none => none
      | some (ps, e2) => some (p :: ps, e2)

end EHANDLE

/-- The address of the slot at position `p` of the host's edict array. -/
def slot_at (h : Host) (p : Int) : Ptr :=
  h.INDEXENT 0 + p * h.edictSize

/-! ## Mock hosts used for the concrete instances -/

/-- Memory given by a table of bytes over zero-filled mapped regions. -/
def memOf (bytes : List (Ptr × Nat)) (mapped : Ptr → Bool) : Mem := fun a =>
  match bytes.lookup a with
  | some b => some b
  | none => if mapped a then some 0 else none

/-- A mock host with 64-bit pointers and four 32-byte slots at addresses
4096, 4128, 4160, 4192.  A slot holds `serialnumber` at byte 4,
`pvPrivateData` at byte 8 and its entvars block at byte 16, whose first field
is `pContainingEntity`.  As in the Half-Life SDK, `VARS` is the address of the
embedded entvars block and the null-test rejects the slot at entity offset 0
(the world) besides the null pointer. -/
def mockHost : Host where
  ptrBytes := 8
  edictSize := 32
  offSerialnumber := 4
  offPvPrivateData := 8
  offPContainingEntity := 0
  maxEntities := 4
  INDEXENT := fun i => if 0 ≤ i ∧ i < 4 then 4096 + i * 32 else 0
  VARS := fun pent => if pent = 0 then 0 else pent + 16
  invalidEnt := fun pent => decide (pent = 4096)

/-- Memory of the mock host: slots 0 and 2 are occupied, with private blocks
of 64 bytes at 8192 and 8448 that hold the entvars pointer at byte 16; slot 2
has serial number 1. -/
def mockMem : Mem :=
  memOf
    [ (4105, 0x20),                 -- slot 0: pvPrivateData = 0x2000
      (4113, 0x10),                 -- slot 0: pContainingEntity = 0x1000
      (4144, 0x20), (4145, 0x10),   -- slot 1: pContainingEntity = 0x1020
      (4164, 1),                    -- slot 2: serialnumber = 1
      (4169, 0x21),                 -- slot 2: pvPrivateData = 0x2100
      (4176, 0x40), (4177, 0x10),   -- slot 2: pContainingEntity = 0x1040
      (4208, 0x60), (4209, 0x10),   -- slot 3: pContainingEntity = 0x1060
      (8208, 0x10), (8209, 0x10),   -- block of slot 0, byte 16: 0x1010
      (8464, 0x50), (8465, 0x10) ]  -- block of slot 2, byte 16: 0x1050
    (fun (a : Int) => (decide (4096 ≤ a) && decide (a < 4224))
      || (decide (8192 ≤ a) && decide (a < 8256))
      || (decide (8448 ≤ a) && decide (a < 8512)))

/-- The memory `mockMem` after the host has reused slot 2: its serial number
is 2, every other byte is as before. -/
def mockMemRespawn : Mem := fun a =>
  if a = 4164 then some 2 else mockMem a

/-- Memory in which the private block of slot 0 (at 8192, 4200 bytes) is all
zero: no offset holds the entvars pointer 0x1010. -/
def blankMem : Mem :=
  memOf [ (4105, 0x20) ]
    (fun (a : Int) => (decide (4096 ≤ a) && decide (a < 4224))
      || (decide (8192 ≤ a) && decide (a < 12392)))

/-- Memory in which the private block of slot 0 holds the entvars pointer
0x1010 at byte 4095 and zero before it. -/
def farMem : Mem :=
  memOf [ (4105, 0x20), (12287, 0x10), (12288, 0x10) ]
    (fun (a : Int) => (decide (4096 ≤ a) && decide (a < 4224))
      || (decide (8192 ≤ a) && decide (a < 12392)))

/-- The memory `mockMemRespawn` after the host has written serial number 1
to slot 2 once more. -/
def mockMemReverted : Mem := fun a =>
  if a = 4164 then some 1 else mockMemRespawn a

/-- The memory `mockMem` with nothing mapped but the edict array and the first
24 bytes of the private block of slot 0. -/
def mockMemWindow : Mem := fun a =>
  if (4096 ≤ a ∧ a < 4224) ∨ (8192 ≤ a ∧ a < 8216) then mockMem a else none

/-! ## Instrumentation of the scan, reachable states, successive `Get()` calls -/

namespace HLTypeConversion

/-- The loop of `search_pev` entered at `i`, instrumented: its result together
with the number of pointer probes `*(entvars_t**)(privateData + i)` performed,
one per iteration. -/
def search_pev_counted (h : Host) (m : Mem) (privateData pev : Ptr) (i : Nat) :
    Option (Option Nat) × Nat :=
  if i < 0xFFF then
    match readPtr h m (privateData + i) with
    | none => (none, 1)
    | some val =>
      if val = pev then (some (some i), 1)
      else
        let r := search_pev_counted h m privateData pev (i + 1)
        (r.1, r.2 + 1)
  else (some none, 0)
termination_by 0xFFF - i

/-- The translator states reachable from construction by calls of `init()`,
each call in a memory of its own. -/
inductive Reachable (h : Host) : HLTypeConversion → Prop
  | constructed : Reachable h new
  | step (m : Mem) (s t : HLTypeConversion) :
      Reachable h s → HLTypeConversion.init h m s = some t → Reachable h t

end HLTypeConversion

namespace EHANDLE

/-- Successive `Get()` calls, one in each memory of the list in turn: the
returned pointers and the handle after the last call. -/
def GetSeq (h : Host) (e : EHANDLE) : List Mem → Option (List Ptr × EHANDLE)
  | [] => some ([], e)
  | m :: ms =>
    match Get h m e with
    | none => none
    | some (p, e1) =>
      match GetSeq h e1 ms with
      | none => none
      | some (ps, e2) => some (p :: ps, e2)

end EHANDLE

/-! ## Memory reads -/

theorem readLE_isSome (m : Mem) (n : Nat) :
    ∀ a : Ptr, (∀ j : Nat, j < n → m (a + j) ≠ none) → readLE m a n ≠ none := by
  induction n with
  | zero => intro a _; simp [readLE]
  | succ n ih =>
    intro a hmap
    have h0 : m a ≠ none := by simpa using hmap 0 (Nat.succ_pos n)
    have h1 : readLE m (a + 1) n ≠ none := by
      apply ih
      intro j hj
      have := hmap (j + 1) (Nat.succ_lt_succ hj)
      have e : a + 1 + (j : Int) = a + ((j + 1 : Nat) : Int) := by push_cast; ring
      rw [e]; exact this
    obtain ⟨b, hb⟩ := Option.ne_none_iff_exists'.mp h0
    obtain ⟨r, hr⟩ := Option.ne_none_iff_exists'.mp h1
    simp [readLE, readByte, hb, hr]

theorem readLE_low_byte (m : Mem) (a : Ptr) (n v : Nat)
    (hv : readLE m a (n + 1) = some v) : ∃ b, m a = some b ∧ v % 256 = b % 256 := by
  cases hb : m a with
  | none => simp [readLE, readByte, hb] at hv
  | some b =>
    cases hr : readLE m (a + 1) n with
    | none => simp [readLE, readByte, hb, hr] at hv
    | some r =>
      simp [readLE, readByte, hb, hr] at hv
      exact ⟨b, rfl, by omega⟩

theorem readPtr_zero_byte (h : Host) (m : Mem) (a pev : Ptr) (hw : 0 < h.ptrBytes)
    (hmap : ∀ j : Nat, j < h.ptrBytes → m (a + j) ≠ none) (h0 : m a = some 0)
    (hp : pev % 256 ≠ 0) :
    readPtr h m a ≠ none ∧ readPtr h m a ≠ some pev := by
  have hsome := readLE_isSome m h.ptrBytes a hmap
  obtain ⟨v, hv⟩ := Option.ne_none_iff_exists'.mp hsome
  obtain ⟨n, hn⟩ : ∃ n, h.ptrBytes = n + 1 := ⟨h.ptrBytes - 1, by omega⟩
  have hlow : v % 256 = 0 := by
    rw [hn] at hv
    obtain ⟨b, hb, hvb⟩ := readLE_low_byte m a n v hv
    rw [h0] at hb
    cases hb
    simpa using hvb
  constructor
  · simp [readPtr, hv]
  · simp only [readPtr, hv]
    intro e
    injection e with e
    apply hp
    rw [← e]
    show ((v : Int)) % 256 = 0
    omega

theorem memOf_ne_none (bytes : List (Ptr × Nat)) (mapped : Ptr → Bool) (a : Ptr)
    (hm : mapped a = true) : memOf bytes mapped a ≠ none := by
  unfold memOf
  cases List.lookup a bytes <;> simp [hm]

theorem lookup_none_of_forall (a : Ptr) :
    ∀ bytes : List (Ptr × Nat), (∀ p ∈ bytes, p.1 ≠ a) → List.lookup a bytes = none := by
  intro bytes
  induction bytes with
  | nil => intro _; rfl
  | cons p ps ih =>
    intro hall
    obtain ⟨x, b⟩ := p
    have hx : x ≠ a := hall (x, b) (List.mem_cons_self _ _)
    have hbeq : (a == x) = false := by
      simp only [beq_eq_false_iff_ne, ne_eq]
      exact fun e => hx e.symm
    simp only [List.lookup, hbeq]
    exact ih (fun q hq => hall q (List.mem_cons_of_mem _ hq))

theorem memOf_zero (bytes : List (Ptr × Nat)) (mapped : Ptr → Bool) (a : Ptr)
    (hb : ∀ p ∈ bytes, p.1 ≠ a) (hm : mapped a = true) : memOf bytes mapped a = some 0 := by
  unfold memOf
  rw [lookup_none_of_forall a bytes hb]
  simp [hm]

theorem blankMem_no_match (i : Nat) (hi : i < 0xFFF) :
    readPtr mockHost blankMem (8192 + i) ≠ none ∧
      readPtr mockHost blankMem (8192 + i) ≠ some 4112 := by
  apply readPtr_zero_byte
  · decide
  · intro j hj
    have hj8 : j < 8 := hj
    apply memOf_ne_none
    simp only [Bool.or_eq_true, Bool.and_eq_true, decide_eq_true_eq]
    omega
  · apply memOf_zero
    · intro p hp
      simp only [List.mem_singleton] at hp
      subst hp
      show (4105 : Int) ≠ 8192 + (i : Int)
      omega
    · simp only [Bool.or_eq_true, Bool.and_eq_true, decide_eq_true_eq]
      omega
  · decide

theorem farMem_no_match (i : Nat) (hi : i < 0xFFF) :
    readPtr mockHost farMem (8192 + i) ≠ none ∧
      readPtr mockHost farMem (8192 + i) ≠ some 4112 := by
  apply readPtr_zero_byte
  · decide
  · intro j hj
    have hj8 : j < 8 := hj
    apply memOf_ne_none
    simp only [Bool.or_eq_true, Bool.and_eq_true, decide_eq_true_eq]
    omega
  · apply memOf_zero
    · intro p hp
      simp only [List.mem_cons, List.mem_singleton, List.not_mem_nil, or_false] at hp
      rcases hp with hp | hp | hp <;> subst hp
      · show (4105 : Int) ≠ 8192 + (i : Int)
        omega
      · show (12287 : Int) ≠ 8192 + (i : Int)
        omega
      · show (12288 : Int) ≠ 8192 + (i : Int)
        omega
    · simp only [Bool.or_eq_true, Bool.and_eq_true, decide_eq_true_eq]
      omega
  · decide

/-! ## The scan loop -/

namespace HLTypeConversion

theorem search_pev_loop_first (h : Host) (m : Mem) (privateData pev : Ptr) (k : Nat)
    (hk : k < 0xFFF) (hat : readPtr h m (privateData + k) = some pev) :
    ∀ d i : Nat, i + d = k →
      (∀ j : Nat, i ≤ j → j < k →
        readPtr h m (privateData + j) ≠ none ∧ readPtr h m (privateData + j) ≠ some pev) →
      search_pev_loop h m privateData pev i = some (some k) := by
  intro d
  induction d with
  | zero =>
    intro i hi _
    have : i = k := by omega
    subst this
    rw [search_pev_loop]
    simp [hk, hat]
  | succ d ih =>
    intro i hi hbefore
    have hik : i < k := by omega
    obtain ⟨hsome, hne⟩ := hbefore i (Nat.le_refl i) hik
    obtain ⟨val, hval⟩ := Option.ne_none_iff_exists'.mp hsome
    have hvp : val ≠ pev := by
      intro e; apply hne; rw [hval, e]
    rw [search_pev_loop]
    have hi' : i < 0xFFF := by omega
    simp only [hi', if_true, hval, hvp, if_false]
    exact ih (i + 1) (by omega) (fun j hj hjk => hbefore j (by omega) hjk)

theorem search_pev_loop_none (h : Host) (m : Mem) (privateData pev : Ptr) :
    ∀ d i : Nat, i + d = 0xFFF →
      (∀ j : Nat, i ≤ j → j < 0xFFF →
        readPtr h m (privateData + j) ≠ none ∧ readPtr h m (privateData + j) ≠ some pev) →
      search_pev_loop h m privateData pev i = some none := by
  intro d
  induction d with
  | zero =>
    intro i hi _
    rw [search_pev_loop]
    have : ¬ i < 0xFFF := by omega
    simp [this]
  | succ d ih =>
    intro i hi hall
    have hi' : i < 0xFFF := by omega
    obtain ⟨hsome, hne⟩ := hall i (Nat.le_refl i) hi'
    obtain ⟨val, hval⟩ := Option.ne_none_iff_exists'.mp hsome
    have hvp : val ≠ pev := by
      intro e; apply hne; rw [hval, e]
    rw [search_pev_loop]
    simp only [hi', if_true, hval, hvp, if_false]
    exact ih (i + 1) (by omega) (fun j hj hjk => hall j (by omega) hjk)

theorem search_pev_found (h : Host) (m : Mem) (s : HLTypeConversion) (privateData : Ptr)
    (k : Nat) (hpriv : readPtr h m (s.m_FirstEdict + h.offPvPrivateData) = some privateData)
    (hloop : search_pev_loop h m privateData (h.VARS s.m_FirstEdict) 0 = some (some k)) :
    search_pev h m s = some { s with m_PevOffset := k } := by
  simp only [search_pev, hpriv, hloop]

theorem search_pev_not_found (h : Host) (m : Mem) (s : HLTypeConversion) (privateData : Ptr)
    (hpriv : readPtr h m (s.m_FirstEdict + h.offPvPrivateData) = some privateData)
    (hloop : search_pev_loop h m privateData (h.VARS s.m_FirstEdict) 0 = some none) :
    search_pev h m s = some { s with m_PevOffset := 0 } := by
  simp only [search_pev, hpriv, hloop]

theorem init_new (h : Host) (m : Mem) :
    init h m new = search_pev h m { m_FirstEdict := h.INDEXENT 0, m_PevOffset := 0 } := by
  simp [init, new]

/-- On a fresh translator, a first match at `k` makes `init()` record `k`. -/
theorem init_new_found (h : Host) (m : Mem) (privateData : Ptr) (k : Nat)
    (hpriv : readPtr h m (h.INDEXENT 0 + h.offPvPrivateData) = some privateData)
    (hk : k < 0xFFF)
    (hat : readPtr h m (privateData + k) = some (h.VARS (h.INDEXENT 0)))
    (hbefore : ∀ i : Nat, i < k →
      readPtr h m (privateData + i) ≠ none ∧
        readPtr h m (privateData + i) ≠ some (h.VARS (h.INDEXENT 0))) :
    init h m new = some { m_FirstEdict := h.INDEXENT 0, m_PevOffset := k } := by
  rw [init_new]
  exact search_pev_found h m _ privateData k hpriv
    (search_pev_loop_first h m privateData _ k hk hat k 0 (by omega)
      (fun j _ hjk => hbefore j hjk))

/-- On a fresh translator, a scan without a match makes `init()` record 0. -/
theorem init_new_not_found (h : Host) (m : Mem) (privateData : Ptr)
    (hpriv : readPtr h m (h.INDEXENT 0 + h.offPvPrivateData) = some privateData)
    (hnone : ∀ i : Nat, i < 0xFFF →
      readPtr h m (privateData + i) ≠ none ∧
        readPtr h m (privateData + i) ≠ some (h.VARS (h.INDEXENT 0))) :
    init h m new = some { m_FirstEdict := h.INDEXENT 0, m_PevOffset := 0 } := by
  rw [init_new]
  exact search_pev_not_found h m _ privateData hpriv
    (search_pev_loop_none h m privateData _ 0xFFF 0 (by omega) (fun j _ hj => hnone j hj))

theorem search_pev_base (h : Host) (m : Mem) (s t : HLTypeConversion)
    (hs : search_pev h m s = some t) : t.m_FirstEdict = s.m_FirstEdict := by
  unfold search_pev at hs
  cases hp : readPtr h m (s.m_FirstEdict + h.offPvPrivateData) with
  | none => simp [hp] at hs
  | some pd =>
    simp only [hp] at hs
    cases hl : search_pev_loop h m pd (h.VARS s.m_FirstEdict) 0 with
    | none => simp [hl] at hs
    | some r =>
      cases r with
      | none => simp [hl] at hs; rw [← hs]
      | some i => simp [hl] at hs; rw [← hs]

/-- After `init()` on a fresh translator the base pointer is `INDEXENT(0)`. -/
theorem init_new_base (h : Host) (m : Mem) (t : HLTypeConversion)
    (ht : init h m new = some t) : t.m_FirstEdict = h.INDEXENT 0 := by
  rw [init_new] at ht
  exact search_pev_base h m _ t ht

theorem toInt32_of_range (x : Int) (h0 : -2147483648 ≤ x) (h1 : x < 2147483648) :
    toInt32 x = x := by
  unfold toInt32
  omega

/-- The mock host initialises to base 4096 and offset 16. -/
theorem init_mock :
    init mockHost mockMem new = some { m_FirstEdict := 4096, m_PevOffset := 16 } :=
  init_new_found mockHost mockMem 8192 16 (by decide) (by decide) (by decide) (by decide)

/-! ## Offset discovery -/

/-- C2: `search_pev` records the least byte offset of the scan window at which
the pointer-sized value read from the private block of the first edict equals
`VARS(m_FirstEdict)`: if the value is read at offset `k < 0xFFF` and every
earlier offset reads some other value, the new `m_PevOffset` is `k` and nothing
else in the translator changes. -/
theorem search_pev_records_first_match (h : Host) (m : Mem) (s : HLTypeConversion)
    (privateData : Ptr) (k : Nat)
    (hpriv : readPtr h m (s.m_FirstEdict + h.offPvPrivateData) = some privateData)
    (hk : k < 0xFFF)
    (hat : readPtr h m (privateData + k) = some (h.VARS s.m_FirstEdict))
    (hbefore : ∀ i : Nat, i < k →
      readPtr h m (privateData + i) ≠ none ∧
        readPtr h m (privateData + i) ≠ some (h.VARS s.m_FirstEdict)) :
    search_pev h m s = some { s with m_PevOffset := k } :=
  search_pev_found h m s privateData k hpriv
    (search_pev_loop_first h m privateData (h.VARS s.m_FirstEdict) k hk hat k 0
      (by omega) (fun j _ hjk => hbefore j hjk))

/-- Instance of C2 on the mock host: the pointer field at byte 16 of the
private block of slot 0 gives offset 16. -/
theorem search_pev_records_first_match_witness :
    search_pev mockHost mockMem { m_FirstEdict := 4096, m_PevOffset := 0 }
      = some { m_FirstEdict := 4096, m_PevOffset := 16 } :=
  search_pev_records_first_match mockHost mockMem { m_FirstEdict := 4096, m_PevOffset := 0 }
    8192 16 (by decide) (by decide) (by decide) (by decide)

/-- C3: if every offset of the scan window reads a value other than the
entvars pointer of slot 0, `search_pev` sets `m_PevOffset` to 0 whatever it was
before, and `init()` on a fresh translator returns normally with the base
pointer set to `INDEXENT(0)` and offset 0. -/
theorem init_falls_back_to_offset_zero (h : Host) (m : Mem) (privateData : Ptr) (off : Nat)
    (hpriv : readPtr h m (h.INDEXENT 0 + h.offPvPrivateData) = some privateData)
    (hnone : ∀ i : Nat, i < 0xFFF →
      readPtr h m (privateData + i) ≠ none ∧
        readPtr h m (privateData + i) ≠ some (h.VARS (h.INDEXENT 0))) :
    search_pev h m { m_FirstEdict := h.INDEXENT 0, m_PevOffset := off }
        = some { m_FirstEdict := h.INDEXENT 0, m_PevOffset := 0 } ∧
      init h m new = some { m_FirstEdict := h.INDEXENT 0, m_PevOffset := 0 } :=
  ⟨search_pev_not_found h m { m_FirstEdict := h.INDEXENT 0, m_PevOffset := off } privateData
      hpriv (search_pev_loop_none h m privateData _ 0xFFF 0 (by omega)
        (fun j _ hj => hnone j hj)),
    init_new_not_found h m privateData hpriv hnone⟩

/-- Instance of C3 on the mock host with an all-zero private block. -/
theorem init_falls_back_to_offset_zero_witness :
    search_pev mockHost blankMem { m_FirstEdict := mockHost.INDEXENT 0, m_PevOffset := 7 }
        = some { m_FirstEdict := mockHost.INDEXENT 0, m_PevOffset := 0 } ∧
      init mockHost blankMem new
        = some { m_FirstEdict := mockHost.INDEXENT 0, m_PevOffset := 0 } :=
  init_falls_back_to_offset_zero mockHost blankMem 8192 7 (by decide) blankMem_no_match

/-- C4, as stated, fails: on the mock host with the entvars pointer of slot 0
first appearing at byte 4095 of its private block, `init()` records offset 0,
not 4095. -/
theorem scan_window_excludes_4095 :
    readPtr mockHost farMem (mockHost.INDEXENT 0 + mockHost.offPvPrivateData) = some 8192 ∧
      readPtr mockHost farMem (8192 + 4095) = some (mockHost.VARS (mockHost.INDEXENT 0)) ∧
      (∀ i : Nat, i < 4095 →
        readPtr mockHost farMem (8192 + i) ≠ none ∧
          readPtr mockHost farMem (8192 + i) ≠ some (mockHost.VARS (mockHost.INDEXENT 0))) ∧
      init mockHost farMem new = some { m_FirstEdict := mockHost.INDEXENT 0, m_PevOffset := 0 } ∧
      init mockHost farMem new
        ≠ some { m_FirstEdict := mockHost.INDEXENT 0, m_PevOffset := 4095 } := by
  have hinit := init_new_not_found mockHost farMem 8192 (by decide) farMem_no_match
  refine ⟨by decide, by decide, farMem_no_match, hinit, ?_⟩
  intro e
  have e2 := hinit.symm.trans e
  injection e2 with e3
  injection e3 with _ e4
  exact absurd e4 (by decide)

/-- C4, amended: the scan window is the offsets 0 through 4094.  If the entvars
pointer of slot 0 first appears in its private block at an offset `k ≤ 4094`,
`init()` on a fresh translator discovers `k`. -/
theorem init_discovers_offset_up_to_4094 (h : Host) (m : Mem) (privateData : Ptr) (k : Nat)
    (hpriv : readPtr h m (h.INDEXENT 0 + h.offPvPrivateData) = some privateData)
    (hk : k ≤ 4094)
    (hat : readPtr h m (privateData + k) = some (h.VARS (h.INDEXENT 0)))
    (hbefore : ∀ i : Nat, i < k →
      readPtr h m (privateData + i) ≠ none ∧
        readPtr h m (privateData + i) ≠ some (h.VARS (h.INDEXENT 0))) :
    init h m new = some { m_FirstEdict := h.INDEXENT 0, m_PevOffset := k } :=
  init_new_found h m privateData k hpriv (by omega) hat hbefore

/-- Instance of the amended C4 on the mock host: offset 16 is discovered. -/
theorem init_discovers_offset_up_to_4094_witness :
    init mockHost mockMem new = some { m_FirstEdict := mockHost.INDEXENT 0, m_PevOffset := 16 } :=
  init_discovers_offset_up_to_4094 mockHost mockMem 8192 16
    (by decide) (by decide) (by decide) (by decide)

/-- C1: on a host where the private block of slot 0 holds `VARS` of slot 0
first at byte `k` of the scan window, and the private block `cbase` of an
occupied slot `id` holds `VARS` of that slot at the same byte `k`, `init()` on
a fresh translator succeeds with offset `k`, and afterwards
`cbase_to_entvar(id_to_cbase(id))` equals `id_to_entvars(id)`. -/
theorem cbase_to_entvar_of_id_to_cbase (h : Host) (m : Mem) (privateData : Ptr) (k : Nat)
    (id : Int) (cbase : Ptr)
    (hpriv : readPtr h m (h.INDEXENT 0 + h.offPvPrivateData) = some privateData)
    (hk : k < 0xFFF)
    (hat : readPtr h m (privateData + k) = some (h.VARS (h.INDEXENT 0)))
    (hbefore : ∀ i : Nat, i < k →
      readPtr h m (privateData + i) ≠ none ∧
        readPtr h m (privateData + i) ≠ some (h.VARS (h.INDEXENT 0)))
    (hcbase : readPtr h m (slot_at h id + h.offPvPrivateData) = some cbase)
    (hocc : cbase ≠ 0)
    (hfield : readPtr h m (cbase + k) = some (h.VARS (slot_at h id))) :
    init h m new = some { m_FirstEdict := h.INDEXENT 0, m_PevOffset := k } ∧
      (id_to_cbase h m { m_FirstEdict := h.INDEXENT 0, m_PevOffset := k } id).bind
          (cbase_to_entvar h m { m_FirstEdict := h.INDEXENT 0, m_PevOffset := k })
        = some (id_to_entvars h { m_FirstEdict := h.INDEXENT 0, m_PevOffset := k } id) := by
  refine ⟨init_new_found h m privateData k hpriv hk hat hbefore, ?_⟩
  have hoff : toInt32 (k : Int) = k := toInt32_of_range _ (by omega) (by omega)
  by_cases hz : slot_at h id = 0
  · have hz2 : h.INDEXENT 0 + id * (h.edictSize : Int) = 0 := hz
    simp [id_to_cbase, id_to_entvars, id_to_edict, hz2, cbase_to_entvar]
  · have hz2 : ¬ h.INDEXENT 0 + id * (h.edictSize : Int) = 0 := hz
    have hcb2 : readPtr h m (h.INDEXENT 0 + id * (h.edictSize : Int) + h.offPvPrivateData)
        = some cbase := hcbase
    have hf2 : readPtr h m (cbase + k)
        = some (h.VARS (h.INDEXENT 0 + id * (h.edictSize : Int))) := hfield
    simp [id_to_cbase, id_to_entvars, id_to_edict, hz2, hcb2, cbase_to_entvar, hocc,
      get_pdata, ref_pdata, hoff, hf2]

/-- Instance of C1 on the mock host: slot 2, private block at 8448, pointer
field at byte 16; both sides are the entvars address 4176. -/
theorem cbase_to_entvar_of_id_to_cbase_witness :
    init mockHost mockMem new
        = some { m_FirstEdict := mockHost.INDEXENT 0, m_PevOffset := 16 } ∧
      (id_to_cbase mockHost mockMem { m_FirstEdict := mockHost.INDEXENT 0, m_PevOffset := 16 }
          2).bind
          (cbase_to_entvar mockHost mockMem
            { m_FirstEdict := mockHost.INDEXENT 0, m_PevOffset := 16 })
        = some (id_to_entvars mockHost
            { m_FirstEdict := mockHost.INDEXENT 0, m_PevOffset := 16 } 2) :=
  cbase_to_entvar_of_id_to_cbase mockHost mockMem 8192 16 2 8448
    (by decide) (by decide) (by decide) (by decide) (by decide) (by decide) (by decide)

/-! ## Identifier and slot -/

/-- C5, as stated, fails: the mock host, like the Half-Life engine, lets its
null-test reject the slot at position 0, and after `init()` the identifier of
`slot_at(0)` is -1, not 0. -/
theorem edict_to_id_of_slot_zero :
    init mockHost mockMem new = some { m_FirstEdict := 4096, m_PevOffset := 16 } ∧
      (0 : Int) < mockHost.maxEntities ∧
      edict_to_id mockHost { m_FirstEdict := 4096, m_PevOffset := 16 } (slot_at mockHost 0) = -1 ∧
      edict_to_id mockHost { m_FirstEdict := 4096, m_PevOffset := 16 } (slot_at mockHost 0) ≠ 0 :=
  ⟨init_mock, by decide, by decide, by decide⟩

/-- C5, amended: after `init()`, for every position `p` in `[0, N)`,
`edict_to_id(slot_at(p))` is `p` if the host null-test accepts the slot and
-1 if it rejects it (slots have a positive size and `N` is within the range of
`int`). -/
theorem edict_to_id_of_slot_at (h : Host) (m : Mem) (t : HLTypeConversion) (p : Int)
    (hinit : init h m new = some t)
    (hsize : 0 < h.edictSize) (hN : h.maxEntities ≤ 2147483648)
    (hp0 : 0 ≤ p) (hpN : p < h.maxEntities) :
    edict_to_id h t (slot_at h p) = if FNullEnt h (slot_at h p) = true then -1 else p := by
  cases hvalid : FNullEnt h (slot_at h p) with
  | true => simp [edict_to_id, hvalid]
  | false =>
    have hbase := init_new_base h m t hinit
    have hne : (h.edictSize : Int) ≠ 0 := by omega
    have hdiff : slot_at h p - t.m_FirstEdict = p * (h.edictSize : Int) := by
      rw [hbase]; unfold slot_at; ring
    unfold edict_to_id
    rw [hvalid, hdiff, Int.mul_tdiv_cancel p hne]
    simp only [Bool.false_eq_true, if_false]
    exact toInt32_of_range p (by omega) (by omega)

/-- Instance of the amended C5 on the mock host: slot 2, which the null-test
accepts, has identifier 2, and slot 0, which it rejects, has -1. -/
theorem edict_to_id_of_slot_at_witness :
    (edict_to_id mockHost { m_FirstEdict := 4096, m_PevOffset := 16 } (slot_at mockHost 2)
        = if FNullEnt mockHost (slot_at mockHost 2) = true then -1 else 2) ∧
      FNullEnt mockHost (slot_at mockHost 2) = false ∧
      (edict_to_id mockHost { m_FirstEdict := 4096, m_PevOffset := 16 } (slot_at mockHost 0)
        = if FNullEnt mockHost (slot_at mockHost 0) = true then -1 else 0) ∧
      FNullEnt mockHost (slot_at mockHost 0) = true :=
  ⟨edict_to_id_of_slot_at mockHost mockMem { m_FirstEdict := 4096, m_PevOffset := 16 } 2
      init_mock (by decide) (by decide) (by decide) (by decide),
    by decide,
    edict_to_id_of_slot_at mockHost mockMem { m_FirstEdict := 4096, m_PevOffset := 16 } 0
      init_mock (by decide) (by decide) (by decide) (by decide),
    by decide⟩

/-- C6: after `init()`, `id_to_edict(id)` is the host's `slot_at(id)`, the
base pointer plus `id` strides, for every identifier `id` (in particular for
every valid one, `0 ≤ id < N`). -/
theorem id_to_edict_eq_slot_at (h : Host) (m : Mem) (t : HLTypeConversion) (id : Int)
    (hinit : init h m new = some t) :
    id_to_edict h t id = slot_at h id ∧
      id_to_edict h t id = t.m_FirstEdict + id * h.edictSize := by
  have hbase := init_new_base h m t hinit
  unfold id_to_edict slot_at
  rw [hbase]
  exact ⟨rfl, rfl⟩

/-- Instance of C6 on the mock host: identifier 3. -/
theorem id_to_edict_eq_slot_at_witness :
    id_to_edict mockHost { m_FirstEdict := 4096, m_PevOffset := 16 } 3 = slot_at mockHost 3 ∧
      id_to_edict mockHost { m_FirstEdict := 4096, m_PevOffset := 16 } 3
        = (4096 : Int) + 3 * mockHost.edictSize :=
  id_to_edict_eq_slot_at mockHost mockMem { m_FirstEdict := 4096, m_PevOffset := 16 } 3 init_mock

/-! ## Sentinels -/

/-- C9: null inputs yield the sentinels in every translator state and every
memory, hence also in a memory with no mapped byte, where any read would be a
fault: `edict_to_id(null) = -1`, `entvar_to_edict(null) = null`,
`entvars_to_id(null) = -1`, `cbase_to_entvar(null) = null` and
`cbase_to_id(null) = -1`. -/
theorem null_inputs_yield_sentinels (h : Host) (m : Mem) (s : HLTypeConversion) :
    edict_to_id h s 0 = -1 ∧
      entvar_to_edict h m 0 = some 0 ∧
      entvars_to_id h m s 0 = some (-1) ∧
      cbase_to_entvar h m s 0 = some 0 ∧
      cbase_to_id h m s 0 = some (-1) := by
  have h1 : edict_to_id h s 0 = -1 := by simp [edict_to_id, FNullEnt]
  have h2 : entvar_to_edict h m 0 = some 0 := by simp [entvar_to_edict]
  have h3 : entvars_to_id h m s 0 = some (-1) := by simp [entvars_to_id, h2, h1]
  have h4 : cbase_to_entvar h m s 0 = some 0 := by simp [cbase_to_entvar]
  exact ⟨h1, h2, h3, h4, by simp [cbase_to_id, h4, h3]⟩

/-- C10, as stated, fails: after `init()` on the mock host `id_to_edict(-1)` is
the address 4064 one stride below the array, not null; `id_to_entvars(-1)` is
4080, not null; and `id_to_cbase(-1)` reads the pointer at 4072, which is a
fault in `mockMem` and the stored value 21 once those bytes are mapped. -/
theorem id_minus_one_is_not_null :
    init mockHost mockMem new = some { m_FirstEdict := 4096, m_PevOffset := 16 } ∧
      id_to_edict mockHost { m_FirstEdict := 4096, m_PevOffset := 16 } (-1) = 4064 ∧
      id_to_entvars mockHost { m_FirstEdict := 4096, m_PevOffset := 16 } (-1) = 4080 ∧
      id_to_cbase mockHost mockMem { m_FirstEdict := 4096, m_PevOffset := 16 } (-1) = none ∧
      id_to_cbase mockHost (fun a => if 4064 ≤ a ∧ a < 4096 then some 21 else mockMem a)
          { m_FirstEdict := 4096, m_PevOffset := 16 } (-1)
        = some 1519143629599610133 :=
  ⟨init_mock, by decide, by decide, by decide, by decide⟩

/-- C10, amended: the identifier -1 is not special-cased.  In every state
`id_to_edict(-1)` is the base pointer minus one stride; `id_to_cbase(-1)` and
`id_to_entvars(-1)` are null, with no read, only if that address is null, and
otherwise are the `pvPrivateData` field read at that address and `VARS` of that
address. -/
theorem id_minus_one_is_base_minus_stride (h : Host) (m : Mem) (s : HLTypeConversion) :
    id_to_edict h s (-1) = s.m_FirstEdict - h.edictSize ∧
      id_to_cbase h m s (-1)
        = (if s.m_FirstEdict - h.edictSize = 0 then some 0
            else readPtr h m (s.m_FirstEdict - h.edictSize + h.offPvPrivateData)) ∧
      id_to_entvars h s (-1)
        = (if s.m_FirstEdict - h.edictSize = 0 then 0
            else h.VARS (s.m_FirstEdict - h.edictSize)) := by
  have he : id_to_edict h s (-1) = s.m_FirstEdict - h.edictSize := by
    unfold id_to_edict; ring
  refine ⟨he, ?_, ?_⟩
  · simp only [id_to_cbase, he]
    by_cases hz : s.m_FirstEdict - (h.edictSize : Int) = 0 <;> simp [hz]
  · simp only [id_to_entvars, he]
    by_cases hz : s.m_FirstEdict - (h.edictSize : Int) = 0 <;> simp [hz]

/-! ## Composite conversions and repeated `init()` -/

theorem FNullEnt_false_ne_zero (h : Host) (p : Ptr) (hv : FNullEnt h p = false) : p ≠ 0 := by
  intro e
  simp [FNullEnt, e] at hv

/-- The identifier of the pointer `n` strides above the base is `n` narrowed to
`int`, when the null-test accepts the pointer. -/
theorem edict_to_id_strides (h : Host) (s : HLTypeConversion) (n : Int)
    (hsize : 0 < h.edictSize)
    (hvalid : FNullEnt h (s.m_FirstEdict + n * h.edictSize) = false) :
    edict_to_id h s (s.m_FirstEdict + n * h.edictSize) = toInt32 n := by
  have hne : (h.edictSize : Int) ≠ 0 := by omega
  have hdiff : s.m_FirstEdict + n * (h.edictSize : Int) - s.m_FirstEdict
      = n * (h.edictSize : Int) := by ring
  unfold edict_to_id
  rw [hvalid, hdiff, Int.mul_tdiv_cancel n hne]
  simp only [Bool.false_eq_true, if_false]

/-- C11, as stated, fails: on the mock host slot 0 is occupied, its private
block holds the entvars pointer at the discovered offset 16 and its entvars
block points back to slot 0, but the null-test rejects slot 0 and
`cbase_to_id(id_to_cbase(0))` is -1, not 0. -/
theorem cbase_to_id_of_slot_zero :
    init mockHost mockMem new = some { m_FirstEdict := 4096, m_PevOffset := 16 } ∧
      id_to_cbase mockHost mockMem { m_FirstEdict := 4096, m_PevOffset := 16 } 0 = some 8192 ∧
      readPtr mockHost mockMem (8192 + 16) = some (mockHost.VARS (slot_at mockHost 0)) ∧
      readPtr mockHost mockMem
          (mockHost.VARS (slot_at mockHost 0) + mockHost.offPContainingEntity)
        = some (slot_at mockHost 0) ∧
      cbase_to_id mockHost mockMem { m_FirstEdict := 4096, m_PevOffset := 16 } 8192
        = some (-1) :=
  ⟨init_mock, by decide, by decide, by decide, by decide⟩

/-- C11, amended: on a host where the private block of slot 0 holds `VARS` of
slot 0 first at byte `k` of the scan window, for every occupied slot `id` in
`[0, N)` whose private block holds `VARS` of the slot at byte `k` and whose
entvars block points back to the slot, `init()` succeeds and afterwards
`cbase_to_id(id_to_cbase(id))` is `id` if the host null-test accepts the slot
and -1 if it rejects it. -/
theorem cbase_to_id_of_id_to_cbase (h : Host) (m : Mem) (privateData : Ptr) (k : Nat)
    (id : Int) (cbase : Ptr)
    (hpriv : readPtr h m (h.INDEXENT 0 + h.offPvPrivateData) = some privateData)
    (hk : k < 0xFFF)
    (hat : readPtr h m (privateData + k) = some (h.VARS (h.INDEXENT 0)))
    (hbefore : ∀ i : Nat, i < k →
      readPtr h m (privateData + i) ≠ none ∧
        readPtr h m (privateData + i) ≠ some (h.VARS (h.INDEXENT 0)))
    (hsize : 0 < h.edictSize) (hN : h.maxEntities ≤ 2147483648)
    (hid0 : 0 ≤ id) (hidN : id < h.maxEntities)
    (hcbase : readPtr h m (slot_at h id + h.offPvPrivateData) = some cbase)
    (hocc : cbase ≠ 0)
    (hfield : readPtr h m (cbase + k) = some (h.VARS (slot_at h id)))
    (hpev : h.VARS (slot_at h id) ≠ 0)
    (hback : readPtr h m (h.VARS (slot_at h id) + h.offPContainingEntity)
      = some (slot_at h id)) :
    init h m new = some { m_FirstEdict := h.INDEXENT 0, m_PevOffset := k } ∧
      (id_to_cbase h m { m_FirstEdict := h.INDEXENT 0, m_PevOffset := k } id).bind
          (cbase_to_id h m { m_FirstEdict := h.INDEXENT 0, m_PevOffset := k })
        = some (if FNullEnt h (slot_at h id) = true then -1 else id) := by
  refine ⟨init_new_found h m privateData k hpriv hk hat hbefore, ?_⟩
  have hoff : toInt32 (k : Int) = k := toInt32_of_range _ (by omega) (by omega)
  have hnull : edict_to_id h { m_FirstEdict := h.INDEXENT 0, m_PevOffset := k } 0 = -1 := by
    simp [edict_to_id, FNullEnt]
  have h2 : cbase_to_entvar h m { m_FirstEdict := h.INDEXENT 0, m_PevOffset := k } cbase
      = some (h.VARS (slot_at h id)) := by
    simp [cbase_to_entvar, hocc, get_pdata, ref_pdata, hoff, hfield]
  by_cases hslot : slot_at h id = 0
  · have hrej : FNullEnt h (slot_at h id) = true := by simp [FNullEnt, hslot]
    have hz : h.INDEXENT 0 + id * (h.edictSize : Int) = 0 := hslot
    have h1 : id_to_cbase h m { m_FirstEdict := h.INDEXENT 0, m_PevOffset := k } id
        = some 0 := by
      simp [id_to_cbase, id_to_edict, hz]
    rw [h1, hrej]
    simp [cbase_to_id, cbase_to_entvar, entvars_to_id, entvar_to_edict, hnull]
  · have hz : ¬ h.INDEXENT 0 + id * (h.edictSize : Int) = 0 := hslot
    have hcb : readPtr h m (h.INDEXENT 0 + id * (h.edictSize : Int) + h.offPvPrivateData)
        = some cbase := hcbase
    have h1 : id_to_cbase h m { m_FirstEdict := h.INDEXENT 0, m_PevOffset := k } id
        = some cbase := by
      simp [id_to_cbase, id_to_edict, hz, hcb]
    rw [h1]
    cases hvalid : FNullEnt h (slot_at h id) with
    | true =>
      have h3 : entvar_to_edict h m (h.VARS (slot_at h id)) = some 0 := by
        simp [entvar_to_edict, hpev, hback, hvalid]
      simp [cbase_to_id, h2, entvars_to_id, h3, hnull]
    | false =>
      have hid : edict_to_id h { m_FirstEdict := h.INDEXENT 0, m_PevOffset := k }
          (slot_at h id) = id := by
        have e := edict_to_id_strides h { m_FirstEdict := h.INDEXENT 0, m_PevOffset := k } id
          hsize hvalid
        rw [toInt32_of_range id (by omega) (by omega)] at e
        exact e
      have h3 : entvar_to_edict h m (h.VARS (slot_at h id)) = some (slot_at h id) := by
        simp [entvar_to_edict, hpev, hback, hvalid]
      simp [cbase_to_id, h2, entvars_to_id, h3, hid]

/-- Instance of the amended C11 on the mock host with four slots and the
pointer field at byte 16: `init()` discovers 16; `cbase_to_id` of the block of
the occupied slot 2, which the null-test accepts, is 2, and `cbase_to_id` of the
block of the occupied slot 0, which it rejects, is -1. -/
theorem cbase_to_id_of_id_to_cbase_witness :
    (init mockHost mockMem new
        = some { m_FirstEdict := mockHost.INDEXENT 0, m_PevOffset := 16 } ∧
      (id_to_cbase mockHost mockMem { m_FirstEdict := mockHost.INDEXENT 0, m_PevOffset := 16 }
          2).bind
          (cbase_to_id mockHost mockMem
            { m_FirstEdict := mockHost.INDEXENT 0, m_PevOffset := 16 })
        = some (if FNullEnt mockHost (slot_at mockHost 2) = true then -1 else 2)) ∧
      FNullEnt mockHost (slot_at mockHost 2) = false ∧
      (init mockHost mockMem new
        = some { m_FirstEdict := mockHost.INDEXENT 0, m_PevOffset := 16 } ∧
      (id_to_cbase mockHost mockMem { m_FirstEdict := mockHost.INDEXENT 0, m_PevOffset := 16 }
          0).bind
          (cbase_to_id mockHost mockMem
            { m_FirstEdict := mockHost.INDEXENT 0, m_PevOffset := 16 })
        = some (if FNullEnt mockHost (slot_at mockHost 0) = true then -1 else 0)) ∧
      FNullEnt mockHost (slot_at mockHost 0) = true :=
  ⟨cbase_to_id_of_id_to_cbase mockHost mockMem 8192 16 2 8448
      (by decide) (by decide) (by decide) (by decide) (by decide) (by decide) (by decide)
      (by decide) (by decide) (by decide) (by decide) (by decide) (by decide),
    by decide,
    cbase_to_id_of_id_to_cbase mockHost mockMem 8192 16 0 8192
      (by decide) (by decide) (by decide) (by decide) (by decide) (by decide) (by decide)
      (by decide) (by decide) (by decide) (by decide) (by decide) (by decide),
    by decide⟩

/-- C12: once `init()` has run on a fresh translator with `INDEXENT(0)`
non-null, a further `init()` in any memory returns the same state: base
pointer and offset are unchanged, and `init()` followed by `init()` is a
single `init()`. -/
theorem init_idempotent (h : Host) (m m2 : Mem) (t : HLTypeConversion)
    (hinit : init h m new = some t) (hnn : h.INDEXENT 0 ≠ 0) :
    init h m2 t = some t ∧ (init h m new).bind (init h m2) = init h m new := by
  have hbase := init_new_base h m t hinit
  have hne : ¬ t.m_FirstEdict = 0 := by rw [hbase]; exact hnn
  have hsame : init h m2 t = some t := by
    unfold init
    rw [if_neg hne]
  exact ⟨hsame, by rw [hinit]; exact hsame⟩

/-- Instance of C12 on the mock host: after `init()` discovered offset 16, a
second `init()` in a memory whose private block of slot 0 is all zero keeps
base 4096 and offset 16. -/
theorem init_idempotent_witness :
    init mockHost blankMem { m_FirstEdict := 4096, m_PevOffset := 16 }
        = some { m_FirstEdict := 4096, m_PevOffset := 16 } ∧
      (init mockHost mockMem new).bind (init mockHost blankMem) = init mockHost mockMem new :=
  init_idempotent mockHost mockMem blankMem { m_FirstEdict := 4096, m_PevOffset := 16 }
    init_mock (by decide)

/-- C14: for a non-null `pev` whose `pContainingEntity` field reads `c`,
`entvar_to_edict(pev)` is null exactly when the null-test rejects `c` and is
`c` unchanged otherwise; for `pev` null it is null; and for every `pev`
`entvars_to_id(pev)` is `edict_to_id` of `entvar_to_edict(pev)`. -/
theorem entvar_to_edict_spec (h : Host) (m : Mem) (s : HLTypeConversion) (pev c : Ptr)
    (hread : pev ≠ 0 → readPtr h m (pev + h.offPContainingEntity) = some c) :
    (entvar_to_edict h m pev = some 0 ↔ (pev = 0 ∨ FNullEnt h c = true)) ∧
      entvar_to_edict h m pev = some (if pev = 0 ∨ FNullEnt h c = true then 0 else c) ∧
      entvars_to_id h m s pev = (entvar_to_edict h m pev).map (edict_to_id h s) := by
  have hcomp : entvars_to_id h m s pev = (entvar_to_edict h m pev).map (edict_to_id h s) := by
    unfold entvars_to_id
    cases entvar_to_edict h m pev <;> rfl
  by_cases hz : pev = 0
  · subst hz
    simp [entvar_to_edict, hcomp]
  · have hr := hread hz
    cases hf : FNullEnt h c with
    | true => simp [entvar_to_edict, hz, hr, hf, hcomp]
    | false =>
      have hc : c ≠ 0 := FNullEnt_false_ne_zero h c hf
      simp [entvar_to_edict, hz, hr, hf, hcomp, hc]

/-- Instance of C14 on the mock host: the entvars block of slot 2 at 4176
points back to slot 2 at 4160, which the null-test accepts. -/
theorem entvar_to_edict_spec_witness :
    (entvar_to_edict mockHost mockMem 4176 = some 0
        ↔ ((4176 : Int) = 0 ∨ FNullEnt mockHost 4160 = true)) ∧
      entvar_to_edict mockHost mockMem 4176
        = some (if (4176 : Int) = 0 ∨ FNullEnt mockHost 4160 = true then 0 else 4160) ∧
      entvars_to_id mockHost mockMem { m_FirstEdict := 4096, m_PevOffset := 16 } 4176
        = (entvar_to_edict mockHost mockMem 4176).map
            (edict_to_id mockHost { m_FirstEdict := 4096, m_PevOffset := 16 }) :=
  entvar_to_edict_spec mockHost mockMem { m_FirstEdict := 4096, m_PevOffset := 16 } 4176 4160
    (fun _ => by decide)

/-! ## Bounds of the scan -/

theorem search_pev_counted_spec (h : Host) (m : Mem) (privateData pev : Ptr) :
    ∀ d i : Nat, i + d = 0xFFF →
      (search_pev_counted h m privateData pev i).1 = search_pev_loop h m privateData pev i ∧
        (search_pev_counted h m privateData pev i).2 ≤ d := by
  intro d
  induction d with
  | zero =>
    intro i hi
    have hn : ¬ i < 0xFFF := by omega
    rw [search_pev_counted, search_pev_loop]
    simp [hn]
  | succ d ih =>
    intro i hi
    have hlt : i < 0xFFF := by omega
    obtain ⟨ih1, ih2⟩ := ih (i + 1) (by omega)
    rw [search_pev_counted, search_pev_loop]
    simp only [hlt, if_true]
    cases hr : readPtr h m (privateData + i) with
    | none => simp
    | some val =>
      by_cases hv : val = pev
      · simp [hv]
      · simp only [hv, if_false]
        exact ⟨ih1, by omega⟩

theorem search_pev_loop_lt (h : Host) (m : Mem) (privateData pev : Ptr) :
    ∀ d i : Nat, i + d = 0xFFF → ∀ k : Nat,
      search_pev_loop h m privateData pev i = some (some k) → k < 0xFFF := by
  intro d
  induction d with
  | zero =>
    intro i hi k hk
    have hn : ¬ i < 0xFFF := by omega
    rw [search_pev_loop] at hk
    simp [hn] at hk
  | succ d ih =>
    intro i hi k hk
    have hlt : i < 0xFFF := by omega
    rw [search_pev_loop] at hk
    simp only [hlt, if_true] at hk
    cases hr : readPtr h m (privateData + i) with
    | none => simp [hr] at hk
    | some val =>
      simp only [hr] at hk
      by_cases hv : val = pev
      · simp only [hv, if_true, Option.some.injEq] at hk
        omega
      · simp only [hv, if_false] at hk
        exact ih (i + 1) (by omega) k hk

theorem search_pev_offset_lt (h : Host) (m : Mem) (s t : HLTypeConversion)
    (hs : search_pev h m s = some t) : t.m_PevOffset < 0xFFF := by
  unfold search_pev at hs
  cases hp : readPtr h m (s.m_FirstEdict + h.offPvPrivateData) with
  | none => simp [hp] at hs
  | some pd =>
    simp only [hp] at hs
    cases hl : search_pev_loop h m pd (h.VARS s.m_FirstEdict) 0 with
    | none => simp [hl] at hs
    | some r =>
      cases r with
      | none =>
        simp [hl] at hs
        rw [← hs]
        show 0 < 0xFFF
        omega
      | some i =>
        simp [hl] at hs
        rw [← hs]
        exact search_pev_loop_lt h m pd _ 0xFFF 0 (by omega) i hl

theorem init_offset_lt (h : Host) (m : Mem) (s t : HLTypeConversion)
    (hs : s.m_PevOffset < 0xFFF) (ht : init h m s = some t) : t.m_PevOffset < 0xFFF := by
  unfold init at ht
  by_cases hz : s.m_FirstEdict = 0
  · rw [if_pos hz] at ht
    exact search_pev_offset_lt h m _ t ht
  · rw [if_neg hz] at ht
    injection ht with ht
    rw [← ht]
    exact hs

theorem reachable_offset_lt (h : Host) (s : HLTypeConversion) (hr : Reachable h s) :
    s.m_PevOffset < 0xFFF := by
  induction hr with
  | constructed =>
    show 0 < 0xFFF
    omega
  | step m s t _ hst ih => exact init_offset_lt h m s t ih hst

theorem reachable_init_mock :
    Reachable mockHost { m_FirstEdict := 4096, m_PevOffset := 16 } :=
  Reachable.step mockMem new _ Reachable.constructed init_mock

/-- C16: the scan is a total function that performs at most 4095 pointer
probes, whatever the memory holds; the offset `search_pev` records is below
4095; and every state reachable from construction by `init()` calls has
`0 ≤ m_PevOffset < 4095`. -/
theorem search_pev_bounds (h : Host) (m : Mem) (privateData pev : Ptr)
    (s t u : HLTypeConversion)
    (hs : search_pev h m s = some t) (hu : Reachable h u) :
    (search_pev_counted h m privateData pev 0).1 = search_pev_loop h m privateData pev 0 ∧
      (search_pev_counted h m privateData pev 0).2 ≤ 4095 ∧
      t.m_PevOffset < 4095 ∧
      0 ≤ u.m_PevOffset ∧ u.m_PevOffset < 4095 :=
  ⟨(search_pev_counted_spec h m privateData pev 0xFFF 0 (by omega)).1,
    (search_pev_counted_spec h m privateData pev 0xFFF 0 (by omega)).2,
    search_pev_offset_lt h m s t hs,
    Nat.zero_le _,
    reachable_offset_lt h u hu⟩

/-- Instance of C16 on the mock host, for the scan of the private block of
slot 0 and the state after `init()`. -/
theorem search_pev_bounds_witness :
    (search_pev_counted mockHost mockMem 8192 4112 0).1
        = search_pev_loop mockHost mockMem 8192 4112 0 ∧
      (search_pev_counted mockHost mockMem 8192 4112 0).2 ≤ 4095 ∧
      (16 : Nat) < 4095 ∧ (0 : Nat) ≤ 16 ∧ (16 : Nat) < 4095 :=
  search_pev_bounds mockHost mockMem 8192 4112
    { m_FirstEdict := mockHost.INDEXENT 0, m_PevOffset := 0 }
    { m_FirstEdict := 4096, m_PevOffset := 16 }
    { m_FirstEdict := 4096, m_PevOffset := 16 }
    ((init_new mockHost mockMem).symm.trans init_mock) reachable_init_mock

/-! ## Bytes read by the scan -/

theorem readLE_congr (m m2 : Mem) (n : Nat) :
    ∀ a : Ptr, (∀ j : Nat, j < n → m2 (a + j) = m (a + j)) → readLE m2 a n = readLE m a n := by
  induction n with
  | zero => intro a _; rfl
  | succ n ih =>
    intro a hag
    have h0 : m2 a = m a := by simpa using hag 0 (Nat.succ_pos n)
    have h1 : readLE m2 (a + 1) n = readLE m (a + 1) n := by
      apply ih
      intro j hj
      have := hag (j + 1) (Nat.succ_lt_succ hj)
      have e : a + 1 + (j : Int) = a + ((j + 1 : Nat) : Int) := by push_cast; ring
      rw [e]; exact this
    simp only [readLE, readByte, h0, h1]

theorem readPtr_window (h : Host) (m m2 : Mem) (privateData : Ptr) (k i : Nat) (hi : i ≤ k)
    (hreadable : ∀ j : Nat, j < k + h.ptrBytes → m (privateData + j) ≠ none)
    (hagree : ∀ j : Nat, j < k + h.ptrBytes → m2 (privateData + j) = m (privateData + j)) :
    readPtr h m (privateData + i) ≠ none ∧
      readPtr h m2 (privateData + i) = readPtr h m (privateData + i) := by
  have e : ∀ j : Nat, privateData + (i : Int) + (j : Int) = privateData + ((i + j : Nat) : Int) := by
    intro j; push_cast; ring
  have hsome : readLE m (privateData + i) h.ptrBytes ≠ none := by
    apply readLE_isSome
    intro j hj
    rw [e j]
    exact hreadable (i + j) (by omega)
  have hcongr : readLE m2 (privateData + i) h.ptrBytes = readLE m (privateData + i) h.ptrBytes := by
    apply readLE_congr
    intro j hj
    rw [e j]
    exact hagree (i + j) (by omega)
  obtain ⟨v, hv⟩ := Option.ne_none_iff_exists'.mp hsome
  constructor
  · simp [readPtr, hv]
  · simp only [readPtr, hcongr]

/-- C17: when the first offset of the scan window whose probe matches is `k`
and the `k + W` bytes from the start of the private block are readable
(`W` the pointer width), `search_pev` does not fault and records `k`; and it
does the same in every memory that agrees on those `k + W` bytes (and on the
`pvPrivateData` field of the first edict), so no byte at offset `k + W` or
beyond is read. -/
theorem search_pev_reads_below_match (h : Host) (m m2 : Mem) (s : HLTypeConversion)
    (privateData : Ptr) (k : Nat)
    (hpriv : readPtr h m (s.m_FirstEdict + h.offPvPrivateData) = some privateData)
    (hpriv2 : readPtr h m2 (s.m_FirstEdict + h.offPvPrivateData) = some privateData)
    (hk : k < 0xFFF)
    (hat : readPtr h m (privateData + k) = some (h.VARS s.m_FirstEdict))
    (hfirst : ∀ i : Nat, i < k →
      readPtr h m (privateData + i) ≠ some (h.VARS s.m_FirstEdict))
    (hreadable : ∀ j : Nat, j < k + h.ptrBytes → m (privateData + j) ≠ none)
    (hagree : ∀ j : Nat, j < k + h.ptrBytes → m2 (privateData + j) = m (privateData + j)) :
    search_pev h m s = some { s with m_PevOffset := k } ∧
      search_pev h m2 s = some { s with m_PevOffset := k } := by
  have hw := fun i hi => readPtr_window h m m2 privateData k i hi hreadable hagree
  constructor
  · exact search_pev_found h m s privateData k hpriv
      (search_pev_loop_first h m privateData _ k hk hat k 0 (by omega)
        (fun j _ hjk => ⟨(hw j (by omega)).1, hfirst j hjk⟩))
  · have hat2 : readPtr h m2 (privateData + k) = some (h.VARS s.m_FirstEdict) := by
      rw [(hw k (Nat.le_refl k)).2]; exact hat
    exact search_pev_found h m2 s privateData k hpriv2
      (search_pev_loop_first h m2 privateData _ k hk hat2 k 0 (by omega)
        (fun j _ hjk => by
          rw [(hw j (by omega)).2]
          exact ⟨(hw j (by omega)).1, hfirst j hjk⟩))

/-- Instance of C17 on the mock host: first match at byte 16, pointer width 8;
the scan gives 16 also in `mockMemWindow`, where the private block of slot 0
ends after 24 bytes. -/
theorem search_pev_reads_below_match_witness :
    search_pev mockHost mockMem { m_FirstEdict := 4096, m_PevOffset := 0 }
        = some { m_FirstEdict := 4096, m_PevOffset := 16 } ∧
      search_pev mockHost mockMemWindow { m_FirstEdict := 4096, m_PevOffset := 0 }
        = some { m_FirstEdict := 4096, m_PevOffset := 16 } :=
  search_pev_reads_below_match mockHost mockMem mockMemWindow
    { m_FirstEdict := 4096, m_PevOffset := 0 } 8192 16
    (by decide) (by decide) (by decide) (by decide) (by decide) (by decide) (by decide)

/-! ## Round trips between identifier and slot -/

end HLTypeConversion

/-! ## EHANDLE -/

namespace EHANDLE

theorem GetTimes_fixed (h : Host) (m : Mem) (e : EHANDLE) (p : Ptr)
    (hget : Get h m e = some (p, e)) :
    ∀ n : Nat, GetTimes h m e n = some (List.replicate n p, e) := by
  intro n
  induction n with
  | zero => rfl
  | succ n ih => simp [GetTimes, hget, ih, List.replicate_succ]

/-- C7: for a slot `S` that the null-test accepts, `Set(S)` captures `S` and
its serial number `g`; once the host has written a different serial number
`g2` to the slot, `Get()` returns null. -/
theorem Get_after_recycle_is_null (h : Host) (m m2 : Mem) (e : EHANDLE) (S : Ptr) (g g2 : Int)
    (hvalid : FNullEnt h S = false)
    (hg : readInt m (S + h.offSerialnumber) = some g)
    (hg2 : readInt m2 (S + h.offSerialnumber) = some g2)
    (hne : g2 ≠ g) :
    Set h m e S = some (S, { m_pent := S, m_serialnumber := g }) ∧
      Get h m2 { m_pent := S, m_serialnumber := g }
        = some (0, { m_pent := S, m_serialnumber := g }) := by
  constructor
  · simp [Set, hvalid, hg]
  · simp [Get, hvalid, hg2, hne]

/-- Instance of C7 on the mock host: slot 2, serial number 1 changed to 2. -/
theorem Get_after_recycle_is_null_witness :
    Set mockHost mockMem { m_pent := 0, m_serialnumber := 0 } 4160
        = some (4160, { m_pent := 4160, m_serialnumber := 1 }) ∧
      Get mockHost mockMemRespawn { m_pent := 4160, m_serialnumber := 1 }
        = some (0, { m_pent := 4160, m_serialnumber := 1 }) :=
  Get_after_recycle_is_null mockHost mockMem mockMemRespawn { m_pent := 0, m_serialnumber := 0 }
    4160 1 2 (by decide) (by decide) (by decide) (by decide)

/-- C8: for a slot `S` that the null-test accepts, after `Set(S)` and as long
as the serial number of `S` reads the captured value `g`, `Get()` returns `S`
and leaves the handle as it was, and `n` successive calls return `S` each
time. -/
theorem Get_fresh_returns_slot (h : Host) (m m2 : Mem) (e : EHANDLE) (S : Ptr) (g : Int)
    (n : Nat)
    (hvalid : FNullEnt h S = false)
    (hg : readInt m (S + h.offSerialnumber) = some g)
    (hg2 : readInt m2 (S + h.offSerialnumber) = some g) :
    Set h m e S = some (S, { m_pent := S, m_serialnumber := g }) ∧
      Get h m2 { m_pent := S, m_serialnumber := g }
        = some (S, { m_pent := S, m_serialnumber := g }) ∧
      GetTimes h m2 { m_pent := S, m_serialnumber := g } n
        = some (List.replicate n S, { m_pent := S, m_serialnumber := g }) := by
  have hget : Get h m2 { m_pent := S, m_serialnumber := g }
      = some (S, { m_pent := S, m_serialnumber := g }) := by
    simp [Get, hvalid, hg2]
  exact ⟨by simp [Set, hvalid, hg], hget, GetTimes_fixed h m2 _ S hget n⟩

/-- Instance of C8 on the mock host: slot 2 with serial number 1, three calls. -/
theorem Get_fresh_returns_slot_witness :
    Set mockHost mockMem { m_pent := 0, m_serialnumber := 0 } 4160
        = some (4160, { m_pent := 4160, m_serialnumber := 1 }) ∧
      Get mockHost mockMem { m_pent := 4160, m_serialnumber := 1 }
        = some (4160, { m_pent := 4160, m_serialnumber := 1 }) ∧
      GetTimes mockHost mockMem { m_pent := 4160, m_serialnumber := 1 } 3
        = some (List.replicate 3 4160, { m_pent := 4160, m_serialnumber := 1 }) :=
  Get_fresh_returns_slot mockHost mockMem mockMem { m_pent := 0, m_serialnumber := 0 }
    4160 1 3 (by decide) (by decide) (by decide)

theorem GetSeq_fixed (h : Host) (e : EHANDLE) (p : Ptr) :
    ∀ ms : List Mem, (∀ m ∈ ms, Get h m e = some (p, e)) →
      GetSeq h e ms = some (List.replicate ms.length p, e) := by
  intro ms
  induction ms with
  | nil => intro _; rfl
  | cons m ms ih =>
    intro hall
    have h1 := hall m (List.mem_cons_self _ _)
    have h2 := ih (fun x hx => hall x (List.mem_cons_of_mem _ hx))
    simp [GetSeq, h1, h2, List.replicate_succ]

theorem Get_empty (h : Host) (m : Mem) :
    Get h m { m_pent := 0, m_serialnumber := 0 }
      = some (0, { m_pent := 0, m_serialnumber := 0 }) := by
  simp [Get, FNullEnt]

theorem Get_of_serial (h : Host) (m : Mem) (S : Ptr) (g g2 : Int)
    (hvalid : FNullEnt h S = false)
    (hread : readInt m (S + h.offSerialnumber) = some g2) :
    Get h m { m_pent := S, m_serialnumber := g }
      = some (if g2 = g then S else 0, { m_pent := S, m_serialnumber := g }) := by
  by_cases hg : g2 = g <;> simp [Get, hvalid, hread, hg]

/-- C13: `Set(pent)` with a `pent` the host null-test rejects leaves the
handle with a null pointer and serial number 0, whatever it held before, and
afterwards `Get()` returns null in every memory, also over any succession
of memories. -/
theorem Set_null_gives_empty_handle (h : Host) (m m2 : Mem) (ms : List Mem) (e : EHANDLE)
    (pent : Ptr) (hrej : FNullEnt h pent = true) :
    Set h m e pent = some (pent, { m_pent := 0, m_serialnumber := 0 }) ∧
      Get h m2 { m_pent := 0, m_serialnumber := 0 }
        = some (0, { m_pent := 0, m_serialnumber := 0 }) ∧
      GetSeq h { m_pent := 0, m_serialnumber := 0 } ms
        = some (List.replicate ms.length 0, { m_pent := 0, m_serialnumber := 0 }) :=
  ⟨by simp [Set, hrej], Get_empty h m2,
    GetSeq_fixed h _ 0 ms (fun x _ => Get_empty h x)⟩

/-- Instance of C13 on the mock host: a handle on slot 2 is set to the null
pointer. -/
theorem Set_null_gives_empty_handle_witness :
    Set mockHost mockMem { m_pent := 4160, m_serialnumber := 1 } 0
        = some (0, { m_pent := 0, m_serialnumber := 0 }) ∧
      Get mockHost mockMemRespawn { m_pent := 0, m_serialnumber := 0 }
        = some (0, { m_pent := 0, m_serialnumber := 0 }) ∧
      GetSeq mockHost { m_pent := 0, m_serialnumber := 0 } [mockMem, mockMemRespawn]
        = some (List.replicate [mockMem, mockMemRespawn].length 0,
            { m_pent := 0, m_serialnumber := 0 }) :=
  Set_null_gives_empty_handle mockHost mockMem mockMemRespawn [mockMem, mockMemRespawn]
    { m_pent := 4160, m_serialnumber := 1 } 0 (by decide)

/-- C15, as stated, fails: on the mock host a handle captured on slot 2 with
serial number 1 returns null once the host has written 2, and returns slot 2
again, with no `Set` in between, once the host has written 1 back. -/
theorem Get_after_mismatch_returns_slot :
    Set mockHost mockMem { m_pent := 0, m_serialnumber := 0 } 4160
        = some (4160, { m_pent := 4160, m_serialnumber := 1 }) ∧
      readInt mockMemRespawn (4160 + mockHost.offSerialnumber) = some 2 ∧
      readInt mockMemReverted (4160 + mockHost.offSerialnumber) = some 1 ∧
      GetSeq mockHost { m_pent := 4160, m_serialnumber := 1 } [mockMemRespawn, mockMemReverted]
        = some ([0, 4160], { m_pent := 4160, m_serialnumber := 1 }) :=
  ⟨by decide, by decide, by decide, by decide⟩

/-- C15, amended: `Get()` never changes the handle and compares the stored
serial number with the live one on every call.  After a mismatch, every later
`Get()` in a memory where the live serial number differs from the stored one
returns null; a later `Get()` returns the slot exactly when the live serial
number equals the stored one again. -/
theorem Get_after_mismatch (h : Host) (S : Ptr) (g g1 g3 : Int) (m1 m3 : Mem) (ms : List Mem)
    (hvalid : FNullEnt h S = false)
    (hmis : readInt m1 (S + h.offSerialnumber) = some g1) (hne : g1 ≠ g)
    (hlater : ∀ m ∈ ms, readInt m (S + h.offSerialnumber) ≠ none ∧
      readInt m (S + h.offSerialnumber) ≠ some g)
    (hread3 : readInt m3 (S + h.offSerialnumber) = some g3) :
    GetSeq h { m_pent := S, m_serialnumber := g } (m1 :: ms)
        = some (List.replicate (m1 :: ms).length 0, { m_pent := S, m_serialnumber := g }) ∧
      Get h m3 { m_pent := S, m_serialnumber := g }
        = some (if g3 = g then S else 0, { m_pent := S, m_serialnumber := g }) := by
  refine ⟨GetSeq_fixed h _ 0 (m1 :: ms) ?_, Get_of_serial h m3 S g g3 hvalid hread3⟩
  intro m hm
  have hnull : ∀ g2 : Int, readInt m (S + h.offSerialnumber) = some g2 → g2 ≠ g →
      Get h m { m_pent := S, m_serialnumber := g }
        = some (0, { m_pent := S, m_serialnumber := g }) := by
    intro g2 hr hg
    rw [Get_of_serial h m S g g2 hvalid hr, if_neg hg]
  rcases List.mem_cons.mp hm with hm1 | hms
  · subst hm1
    exact hnull g1 hmis hne
  · obtain ⟨hsome, hdiff⟩ := hlater m hms
    obtain ⟨g2, hg2⟩ := Option.ne_none_iff_exists'.mp hsome
    exact hnull g2 hg2 (fun e => hdiff (by rw [hg2, e]))

/-- Instance of the amended C15 on the mock host: slot 2 captured with serial
number 1; two calls while the live serial number is 2 return null, and a call
once it is 1 again returns slot 2. -/
theorem Get_after_mismatch_witness :
    GetSeq mockHost { m_pent := 4160, m_serialnumber := 1 } [mockMemRespawn, mockMemRespawn]
        = some (List.replicate [mockMemRespawn, mockMemRespawn].length 0,
            { m_pent := 4160, m_serialnumber := 1 }) ∧
      Get mockHost mockMemReverted { m_pent := 4160, m_serialnumber := 1 }
        = some (if (1 : Int) = 1 then 4160 else 0, { m_pent := 4160, m_serialnumber := 1 }) :=
  Get_after_mismatch mockHost 4160 1 2 1 mockMemRespawn mockMemReverted [mockMemRespawn]
    (by decide) (by decide) (by decide)
    (fun m hm => by
      rw [List.mem_singleton] at hm
      subst hm
      decide)
    (by decide)

/-- C19: `Set(pent)` returns `pent` itself, both when the null-test accepts
`pent` (and its serial number is readable) and when it rejects it; in the
latter case the handle holds a null pointer and serial number 0, so that a
following `Get()` returns null, which differs from the returned `pent` when
`pent` is not the null pointer. -/
theorem Set_returns_argument (h : Host) (m m2 : Mem) (e : EHANDLE) (pent : Ptr) (g : Int)
    (hread : FNullEnt h pent = false → readInt m (pent + h.offSerialnumber) = some g) :
    Set h m e pent
        = some (pent, if FNullEnt h pent = true then { m_pent := 0, m_serialnumber := 0 }
            else { m_pent := pent, m_serialnumber := g }) ∧
      (FNullEnt h pent = true →
        Set h m e pent = some (pent, { m_pent := 0, m_serialnumber := 0 }) ∧
          Get h m2 { m_pent := 0, m_serialnumber := 0 }
            = some (0, { m_pent := 0, m_serialnumber := 0 })) := by
  cases hf : FNullEnt h pent with
  | true => simp [Set, hf, Get_empty]
  | false => simp [Set, hf, hread hf]

/-- Instance of C19 on the mock host: slot 0 at 4096 is not the null pointer
but is rejected by the null-test; `Set` returns 4096, the handle is empty and
the following `Get()` returns null. -/
theorem Set_returns_argument_witness :
    (4096 : Int) ≠ 0 ∧ FNullEnt mockHost 4096 = true ∧
      Set mockHost mockMem { m_pent := 4160, m_serialnumber := 1 } 4096
        = some (4096, { m_pent := 0, m_serialnumber := 0 }) ∧
      Get mockHost mockMem { m_pent := 0, m_serialnumber := 0 }
        = some (0, { m_pent := 0, m_serialnumber := 0 }) :=
  ⟨by decide, by decide,
    (Set_returns_argument mockHost mockMem mockMem { m_pent := 4160, m_serialnumber := 1 }
      4096 0 (fun hacc => absurd hacc (by decide))).2 (by decide)⟩

end EHANDLE

end HL
